import Mathlib

/-!
Verification of the horseVPN relay-discovery, routing and tunneling core
against its specification.

The development shallowly embeds the three services of the repository:

* the Registry (`src/sync-server/src/server.ts`): relay registration with
  input validation, duplicate-id handling, secure-id minting, the periodic
  health sweep, and the `/list` projection;
* the Router (`src/routing-server/src/server.ts`): location-based relay
  selection with a hard-coded fallback, the per-client route cache, the
  `/update-servers` push endpoint and its bearer-token middleware;
* the Relay (`src/actual-vpn-server/main.go`): the WebSocket read/write
  wrappers, the 4096-byte forwarding loop `copyData`, and the upgrade's
  origin check.

JavaScript `Map` objects and the mirrored sqlite tables are modelled as
association lists with replace-or-append insertion; `Date.now()`,
`crypto.randomBytes(16).toString('hex')`, the WHATWG `new URL` parser and
the network liveness probe are oracles passed in as explicit parameters.
-/

namespace HorseVPN

/-- Lookup in an association list: the model of `Map.get` /
`SELECT ... WHERE key = ?`. -/
def mapGet {α : Type} : List (String × α) → String → Option α
  | [], _ => none
  | (k', v) :: rest, k => if k' = k then some v else mapGet rest k

/-- Replace-or-append insertion: the model of `Map.set` and of sqlite
`INSERT OR REPLACE`.  A `Map` holds at most one entry per key, so
replacing the first occurrence is exact. -/
def mapSet {α : Type} : List (String × α) → String → α → List (String × α)
  | [], k, v => [(k, v)]
  | (k', v') :: rest, k, v =>
      if k' = k then (k, v) :: rest else (k', v') :: mapSet rest k v

/-- Deletion of a key: the model of `Map.delete` and of sqlite
`DELETE ... WHERE key = ?`. -/
def mapDel {α : Type} : List (String × α) → String → List (String × α)
  | [], _ => []
  | (k', v') :: rest, k =>
      if k' = k then rest else (k', v') :: mapDel rest k

/-- The model of `Map.has`. -/
def mapHas {α : Type} (m : List (String × α)) (k : String) : Bool :=
  (mapGet m k).isSome

/-- The model of JavaScript `String.prototype.startsWith` (all strings in
play are ASCII, so character-wise comparison matches UTF-16 units). -/
def strStartsWith (s p : String) : Bool :=
  List.isPrefixOf p.toList s.toList

/-- The model of JavaScript `String.prototype.substring(n)`. -/
def substrFrom (s : String) (n : Nat) : String :=
  String.mk (s.toList.drop n)

namespace SyncServer

/-- A registered relay record (`interface Server` in
`src/sync-server/src/server.ts`). -/
structure Server where
  id : String
  location : String
  url : String
  registeredAt : Nat
  lastSeen : Nat
deriving DecidableEq

/-- Registry state: the in-memory `Map` of servers and the mirrored
sqlite table written through `saveServerToDB` / `removeServerFromDB`. -/
structure RegistryState where
  servers : List (String × Server)
  db : List (String × Server)
deriving DecidableEq

/-- A `/register` request body `{id, location, url}`; `none` models an
absent JSON field. -/
structure RegisterRequest where
  id : Option String
  location : Option String
  url : Option String
deriving DecidableEq

/-- A `/register` response: 400 with an error message, 409 on a
duplicate id, or 200 with `{status:'registered', serverId}`. -/
inductive RegisterResult where
  | badRequest (msg : String)
  | conflict
  | registered (serverId : String)
deriving DecidableEq

/-- JavaScript falsiness of an optional string field: absent or empty. -/
def falsy : Option String → Bool
  | none => true
  | some s => s == ""

/-- The character class of the id-format regex `[a-zA-Z0-9_-]`. -/
def isIdChar (c : Char) : Bool :=
  c.isAlpha || c.isDigit || c == '_' || c == '-'

/-- The test `/^[a-zA-Z0-9_-]+$/.test(id)`: nonempty and every character
in the class. -/
def idOK (s : String) : Bool :=
  s.length != 0 && s.toList.all isIdChar

/-- The `app.post('/register')` handler.  `urlValid` is the oracle for
`new URL(url)` succeeding, `randHex` the oracle for
`crypto.randomBytes(16).toString('hex')`, and `now` for `Date.now()`.
The push of the updated list to the routing server after a successful
insert carries no registry state and is omitted. -/
def register (urlValid : String → Bool) (randHex : String) (now : Nat)
    (st : RegistryState) (req : RegisterRequest) :
    RegisterResult × RegistryState :=
  if falsy req.id || falsy req.location || falsy req.url then
    (.badRequest "Missing required fields: id, location, url", st)
  else
    let id := req.id.getD ""
    let location := req.location.getD ""
    let url := req.url.getD ""
    if !idOK id then
      (.badRequest "Invalid server ID format", st)
    else if location.length == 0 || decide (location.length > 100) then
      (.badRequest "Invalid location", st)
    else if !strStartsWith url "wss://" && !strStartsWith url "ws://" then
      (.badRequest "Invalid URL: must use ws:// or wss:// protocol", st)
    else if !urlValid url then
      (.badRequest "Invalid URL format", st)
    else if mapHas st.servers id then
      (.conflict, st)
    else
      -- `let secureId = id; if (!id || id.length < 8) secureId = ...`;
      -- `!id` is impossible here, the missing-field check already fired.
      let secureId := if decide (id.length < 8) then randHex else id
      let server : Server :=
        { id := secureId, location := location, url := url,
          registeredAt := now, lastSeen := now }
      (.registered secureId,
       { servers := mapSet st.servers secureId server,
         db := mapSet st.db secureId server })

/-- The `/list` projection: `{location, url}` pairs of the current
membership, in table order. -/
def listServers (m : List (String × Server)) : List (String × String) :=
  m.map (fun p => (p.2.location, p.2.url))

/-- The body of the `healthCheck` for-loop over the snapshot of ids,
threading `(servers, db, serverListChanged)`.  `alive` is the oracle for
`pingServer` (which probes the record's url). -/
def healthLoop (alive : String → Bool) (now : Nat) :
    List String →
    List (String × Server) × List (String × Server) × Bool →
    List (String × Server) × List (String × Server) × Bool
  | [], acc => acc
  | id :: rest, (srv, db, changed) =>
      match mapGet srv id with
      | none => healthLoop alive now rest (srv, db, changed)
      | some s =>
          if alive s.url then
            let s' := { s with lastSeen := now }
            healthLoop alive now rest (mapSet srv id s', mapSet db id s', changed)
          else
            healthLoop alive now rest (mapDel srv id, mapDel db id, true)

/-- The `healthCheck` sweep: iterate over the ids present at the start,
refresh `lastSeen` of responsive relays, delete unresponsive ones from
memory and from the database, and report whether membership changed (the
handler pushes the list to the routing server exactly when it did). -/
def healthCheck (alive : String → Bool) (now : Nat) (st : RegistryState) :
    List (String × Server) × List (String × Server) × Bool :=
  healthLoop alive now (st.servers.map Prod.fst) (st.servers, st.db, false)

/-- The conjunction of all `/register` validation checks, in source
form; a request passing them reaches the duplicate-id check. -/
def passesValidation (urlValid : String → Bool) (i loc u : String) : Bool :=
  !(i == "" || loc == "" || u == "") &&
  idOK i &&
  !(loc.length == 0 || decide (loc.length > 100)) &&
  (strStartsWith u "wss://" || strStartsWith u "ws://") &&
  urlValid u

/-- The disjunction of malformed-input conditions named by the
specification for `/register`. -/
def malformedReq (urlValid : String → Bool) (req : RegisterRequest) : Prop :=
  falsy req.id = true ∨ falsy req.location = true ∨ falsy req.url = true ∨
  idOK (req.id.getD "") = false ∨
  (req.location.getD "").length = 0 ∨ (req.location.getD "").length > 100 ∨
  (strStartsWith (req.url.getD "") "wss://" = false ∧
   strStartsWith (req.url.getD "") "ws://" = false) ∨
  urlValid (req.url.getD "") = false

instance (urlValid : String → Bool) (req : RegisterRequest) :
    Decidable (malformedReq urlValid req) := by
  unfold malformedReq; infer_instance

end SyncServer

namespace RoutingServer

/-- A membership entry (`interface Server` in
`src/routing-server/src/server.ts`). -/
structure Server where
  location : String
  url : String
deriving DecidableEq

/-- The hard-coded fallback relay
`{ location: 'default', url: 'wss://fallback.0x409.nl/' }`. -/
def fallbackServer : Server :=
  { location := "default", url := "wss://fallback.0x409.nl/" }

/-- Router state: the membership snapshot `serverList` and the sqlite
route cache keyed by client ip. -/
structure RouterState where
  serverList : List Server
  cache : List (String × String)
deriving DecidableEq

/-- `getServerForLocation`: first exact match on `location`, else the
fallback's url. -/
def getServerForLocation (sl : List Server) (location : String) : String :=
  match sl.find? (fun s => s.location == location) with
  | some s => s.url
  | none => fallbackServer.url

/-- The `app.post('/route')` handler: return the cached assignment for
the caller's ip when one exists (JavaScript `!server` also treats an
empty cached string as a miss), otherwise select for the supplied
location, cache the decision, and return it. -/
def route (st : RouterState) (ip location : String) : String × RouterState :=
  match mapGet st.cache ip with
  | some server =>
      if server == "" then
        let fresh := getServerForLocation st.serverList location
        (fresh, { st with cache := mapSet st.cache ip fresh })
      else
        (server, st)
  | none =>
      let fresh := getServerForLocation st.serverList location
      (fresh, { st with cache := mapSet st.cache ip fresh })

/-- The `/update-servers` validation loop: first failing entry's error
message, or `none` when every entry is valid.  `urlValid` is the oracle
for `new URL(server.url)` succeeding. -/
def validateEntries (urlValid : String → Bool) : List Server → Option String
  | [] => none
  | s :: rest =>
      if s.location == "" || s.url == "" then
        some "Invalid server entry: missing location or url"
      else if !strStartsWith s.url "wss://" && !strStartsWith s.url "ws://" then
        some "Invalid server URL: must use ws:// or wss:// protocol"
      else if !urlValid s.url then
        some "Invalid server URL format"
      else validateEntries urlValid rest

/-- A `/update-servers` response: 400, 401/403 from the auth middleware,
or 200 with `{status:'updated', serverCount}`. -/
inductive UpdateResult where
  | badRequest (msg : String)
  | authFailed (code : Nat)
  | updated (serverCount : Nat)
deriving DecidableEq

/-- The `app.post('/update-servers')` handler past the middleware:
validate every entry, then replace the snapshot.  The route cache is not
touched. -/
def updateServers (urlValid : String → Bool) (st : RouterState)
    (body : List Server) : UpdateResult × RouterState :=
  match validateEntries urlValid body with
  | some msg => (.badRequest msg, st)
  | none => (.updated body.length, { st with serverList := body })

/-- Outcome of the `authenticateSyncServer` middleware. -/
inductive AuthResult where
  | pass
  | e401
  | e403
deriving DecidableEq

/-- The `authenticateSyncServer` middleware: with no configured
`SYNC_SERVER_TOKEN` it calls `next()` unconditionally; otherwise a
missing / non-`Bearer ` authorization header is 401 and a wrong token is
403. -/
def authenticateSyncServer (expectedToken authHeader : Option String) :
    AuthResult :=
  match expectedToken with
  | none => .pass
  | some t =>
      match authHeader with
      | none => .e401
      | some h =>
          if !strStartsWith h "Bearer " then .e401
          else if !(substrFrom h 7 == t) then .e403
          else .pass

/-- The full `/update-servers` endpoint: middleware, then handler.  Auth
failures leave the state untouched. -/
def updateServersEndpoint (urlValid : String → Bool)
    (expectedToken authHeader : Option String) (st : RouterState)
    (body : List Server) : UpdateResult × RouterState :=
  match authenticateSyncServer expectedToken authHeader with
  | .pass => updateServers urlValid st body
  | .e401 => (.authFailed 401, st)
  | .e403 => (.authFailed 403, st)

end RoutingServer

namespace Relay

/-- The forwarding buffer size `buf := make([]byte, 4096)`. -/
def BUFSIZE : Nat := 4096

/-- `WSConn.Read` (`src/actual-vpn-server/main.go`): one whole WebSocket
message `data` arrives, `copy(b, data)` copies `min(len(b), len(data))`
bytes into the buffer's front, and the call returns `len(data)` — even
when the message is longer than the buffer. -/
def wsRead (buf data : List Nat) : List Nat × Nat :=
  let k := min data.length BUFSIZE
  (data.take k ++ buf.drop k, data.length)

/-- `Tunnel.copyData` for one direction: repeatedly read into the
4096-byte buffer and write `buf[:n]` verbatim to the other side, until
the source reports an error (modelled as the end of the message list).
Returns the chunks written and `false` when the loop died on the Go
run-time error `buf[:n]` with `n > 4096` (slice bounds out of range)
before writing that chunk. -/
def copyData (buf : List Nat) : List (List Nat) → List (List Nat) × Bool
  | [] => ([], true)
  | data :: rest =>
      let r := wsRead buf data
      if r.2 ≤ BUFSIZE then
        let out := copyData r.1 rest
        (r.1.take r.2 :: out.1, out.2)
      else
        ([], false)

/-- One direction of a tunnel session: `copyData` started on a fresh
zeroed 4096-byte buffer. -/
def runTunnelDirection (msgs : List (List Nat)) : List (List Nat) × Bool :=
  copyData (List.replicate BUFSIZE 0) msgs

/-- The upgrade's `CheckOrigin` callback: `func(r *http.Request) bool {
return true }` — every origin is accepted, an absent header included. -/
def checkOrigin (_origin : Option String) : Bool :=
  true

/-- The per-connection session states of the specification's relay state
machine. -/
inductive SessionState where
  | awaitingUpgrade
  | tunneling
  | closed
deriving DecidableEq

/-- `handleWebSocket`: if the upgrade's origin check passes the handler
wraps the connection and starts the forwarding goroutines (the session
is TUNNELING); a failed upgrade returns without a session. -/
def handleWebSocket (origin : Option String) : SessionState :=
  if checkOrigin origin then .tunneling else .closed

end Relay

/-! ### Association-list lemmas -/

theorem mapGet_set_self {α : Type} (m : List (String × α)) (k : String) (v : α) :
    mapGet (mapSet m k v) k = some v := by
  induction m with
  | nil => simp [mapGet, mapSet]
  | cons p rest ih =>
      obtain ⟨k', v'⟩ := p
      by_cases h : k' = k
      · simp [mapGet, mapSet, h]
      · simp [mapGet, mapSet, h, ih]

theorem mapGet_set_ne {α : Type} (m : List (String × α)) (k k' : String) (v : α)
    (h : k' ≠ k) : mapGet (mapSet m k v) k' = mapGet m k' := by
  have hne : ¬k = k' := fun h' => h h'.symm
  induction m with
  | nil => simp [mapGet, mapSet, hne]
  | cons p rest ih =>
      obtain ⟨k₀, v₀⟩ := p
      by_cases h₀ : k₀ = k
      · subst h₀
        simp [mapGet, mapSet, hne]
      · by_cases h₁ : k₀ = k'
        · subst h₁
          simp [mapGet, mapSet, h₀]
        · simp [mapGet, mapSet, h₀, h₁, ih]

theorem mapGet_del_self {α : Type} (m : List (String × α)) (k : String)
    (hnd : (m.map Prod.fst).Nodup) : mapGet (mapDel m k) k = none := by
  induction m with
  | nil => simp [mapGet, mapDel]
  | cons p rest ih =>
      obtain ⟨k₀, v₀⟩ := p
      simp only [List.map_cons, List.nodup_cons] at hnd
      by_cases h₀ : k₀ = k
      · subst h₀
        -- the remaining entries cannot contain the deleted key
        simp [mapDel]
        clear ih
        induction rest with
        | nil => simp [mapGet]
        | cons q rs ih' =>
            obtain ⟨k₁, v₁⟩ := q
            simp only [List.map_cons, List.mem_cons, List.nodup_cons] at hnd
            have hk₁ : k₁ ≠ k₀ := fun h => hnd.1 (Or.inl h.symm)
            simp [mapGet, hk₁]
            exact ih' ⟨fun h => hnd.1 (Or.inr h), hnd.2.2⟩
      · simp [mapGet, mapDel, h₀]
        exact ih hnd.2

theorem mapGet_del_ne {α : Type} (m : List (String × α)) (k k' : String)
    (h : k' ≠ k) : mapGet (mapDel m k) k' = mapGet m k' := by
  have hne : ¬k = k' := fun h' => h h'.symm
  induction m with
  | nil => simp [mapGet, mapDel]
  | cons p rest ih =>
      obtain ⟨k₀, v₀⟩ := p
      by_cases h₀ : k₀ = k
      · subst h₀
        simp [mapGet, mapDel, hne]
      · simp [mapGet, mapDel, h₀, ih]

theorem mapGet_mem_keys {α : Type} (m : List (String × α)) (k : String) (v : α)
    (h : mapGet m k = some v) : k ∈ m.map Prod.fst := by
  induction m with
  | nil => simp [mapGet] at h
  | cons p rest ih =>
      obtain ⟨k₀, v₀⟩ := p
      by_cases h₀ : k₀ = k
      · simp [h₀]
      · simp [mapGet, h₀] at h
        simp [ih h]

theorem keys_mapSet_of_get {α : Type} (m : List (String × α)) (k : String)
    (v v' : α) (h : mapGet m k = some v') :
    (mapSet m k v).map Prod.fst = m.map Prod.fst := by
  induction m with
  | nil => simp [mapGet] at h
  | cons p rest ih =>
      obtain ⟨k₀, v₀⟩ := p
      by_cases h₀ : k₀ = k
      · subst h₀
        simp [mapSet]
      · simp only [mapGet, h₀, if_neg, ite_false] at h
        simp [mapSet, h₀, ih h]

theorem mem_keys_mapSet {α : Type} (m : List (String × α)) (k a : String)
    (v : α) :
    a ∈ (mapSet m k v).map Prod.fst ↔ a ∈ m.map Prod.fst ∨ a = k := by
  induction m with
  | nil => simp [mapSet]
  | cons p rest ih =>
      obtain ⟨k₀, v₀⟩ := p
      by_cases h₀ : k₀ = k
      · subst h₀
        simp [mapSet]
        tauto
      · simp [mapSet, h₀, ih]
        tauto

theorem nodup_keys_mapSet {α : Type} (m : List (String × α)) (k : String)
    (v : α) (h : (m.map Prod.fst).Nodup) :
    ((mapSet m k v).map Prod.fst).Nodup := by
  induction m with
  | nil => simp [mapSet]
  | cons p rest ih =>
      obtain ⟨k₀, v₀⟩ := p
      simp only [List.map_cons, List.nodup_cons] at h
      by_cases h₀ : k₀ = k
      · subst h₀
        simpa [mapSet, List.nodup_cons] using h
      · simp only [mapSet, h₀, if_neg, ite_false, List.map_cons,
          List.nodup_cons]
        refine ⟨fun hmem => ?_, ih h.2⟩
        rcases (mem_keys_mapSet rest k k₀ v).mp hmem with hm | he
        · exact h.1 hm
        · exact h₀ he

theorem keys_mapDel_sublist {α : Type} (m : List (String × α)) (k : String) :
    List.Sublist ((mapDel m k).map Prod.fst) (m.map Prod.fst) := by
  induction m with
  | nil => simp [mapDel]
  | cons p rest ih =>
      obtain ⟨k₀, v₀⟩ := p
      by_cases h₀ : k₀ = k
      · subst h₀
        simp only [mapDel, if_pos, ite_true, List.map_cons]
        exact List.sublist_cons_self _ _
      · simp only [mapDel, h₀, if_neg, ite_false, List.map_cons]
        exact ih.cons₂ _

theorem healthLoop_get_notin (alive : String → Bool) (now : Nat)
    (ids : List String)
    (acc : List (String × SyncServer.Server) ×
      List (String × SyncServer.Server) × Bool)
    (id : String) (h : id ∉ ids) :
    mapGet (SyncServer.healthLoop alive now ids acc).1 id = mapGet acc.1 id ∧
    mapGet (SyncServer.healthLoop alive now ids acc).2.1 id =
      mapGet acc.2.1 id := by
  induction ids generalizing acc with
  | nil => simp [SyncServer.healthLoop]
  | cons idh rest ih =>
      obtain ⟨srv, db, c⟩ := acc
      have hne : id ≠ idh := fun he => h (by simp [he])
      have hrest : id ∉ rest := fun hm => h (List.mem_cons_of_mem _ hm)
      cases hg : mapGet srv idh with
      | none =>
          simp only [SyncServer.healthLoop, hg]
          exact ih _ hrest
      | some s =>
          cases ha : alive s.url with
          | true =>
              simp only [SyncServer.healthLoop, hg]
              rw [if_pos ha]
              have hn := ih (mapSet srv idh { s with lastSeen := now },
                mapSet db idh { s with lastSeen := now }, c) hrest
              rw [hn.1, hn.2, mapGet_set_ne _ _ _ _ hne,
                mapGet_set_ne _ _ _ _ hne]
              exact ⟨rfl, rfl⟩
          | false =>
              simp only [SyncServer.healthLoop, hg]
              rw [if_neg (by simp [ha])]
              have hn := ih (mapDel srv idh, mapDel db idh, true) hrest
              rw [hn.1, hn.2, mapGet_del_ne _ _ _ hne,
                mapGet_del_ne _ _ _ hne]
              exact ⟨rfl, rfl⟩

theorem healthLoop_changed_mono (alive : String → Bool) (now : Nat)
    (ids : List String)
    (acc : List (String × SyncServer.Server) ×
      List (String × SyncServer.Server) × Bool)
    (h : acc.2.2 = true) :
    (SyncServer.healthLoop alive now ids acc).2.2 = true := by
  induction ids generalizing acc with
  | nil => simpa [SyncServer.healthLoop] using h
  | cons idh rest ih =>
      obtain ⟨srv, db, c⟩ := acc
      cases hg : mapGet srv idh with
      | none =>
          simp only [SyncServer.healthLoop, hg]
          exact ih _ h
      | some s =>
          cases ha : alive s.url with
          | true =>
              simp only [SyncServer.healthLoop, hg]
              rw [if_pos ha]
              exact ih _ h
          | false =>
              simp only [SyncServer.healthLoop, hg]
              rw [if_neg (by simp [ha])]
              exact ih _ rfl

theorem healthLoop_spec (alive : String → Bool) (now : Nat)
    (ids : List String) (srv db : List (String × SyncServer.Server)) (c : Bool)
    (id : String) (s : SyncServer.Server)
    (hnd : ids.Nodup)
    (hsrv : (srv.map Prod.fst).Nodup)
    (hdb : (db.map Prod.fst).Nodup)
    (hmem : id ∈ ids)
    (hget : mapGet srv id = some s) :
    (alive s.url = true →
      mapGet (SyncServer.healthLoop alive now ids (srv, db, c)).1 id =
        some { s with lastSeen := now } ∧
      mapGet (SyncServer.healthLoop alive now ids (srv, db, c)).2.1 id =
        some { s with lastSeen := now }) ∧
    (alive s.url = false →
      mapGet (SyncServer.healthLoop alive now ids (srv, db, c)).1 id = none ∧
      mapGet (SyncServer.healthLoop alive now ids (srv, db, c)).2.1 id = none ∧
      (SyncServer.healthLoop alive now ids (srv, db, c)).2.2 = true) := by
  induction ids generalizing srv db c with
  | nil => cases hmem
  | cons idh rest ih =>
      simp only [List.nodup_cons] at hnd
      by_cases he : idh = id
      · subst he
        have hrest : idh ∉ rest := hnd.1
        cases ha : alive s.url with
        | true =>
            refine ⟨fun _ => ?_, fun hf => Bool.noConfusion hf⟩
            simp only [SyncServer.healthLoop, hget]
            rw [if_pos ha]
            have hn := healthLoop_get_notin alive now rest
              (mapSet srv idh { s with lastSeen := now },
               mapSet db idh { s with lastSeen := now }, c) idh hrest
            constructor
            · rw [hn.1]
              exact mapGet_set_self _ _ _
            · rw [hn.2]
              exact mapGet_set_self _ _ _
        | false =>
            refine ⟨fun ht => Bool.noConfusion ht, fun _ => ?_⟩
            simp only [SyncServer.healthLoop, hget]
            rw [if_neg (by simp [ha])]
            have hn := healthLoop_get_notin alive now rest
              (mapDel srv idh, mapDel db idh, true) idh hrest
            refine ⟨?_, ?_, ?_⟩
            · rw [hn.1]
              exact mapGet_del_self _ _ hsrv
            · rw [hn.2]
              exact mapGet_del_self _ _ hdb
            · exact healthLoop_changed_mono alive now rest _ rfl
      · have hne : id ≠ idh := fun h => he h.symm
        have hmem2 : id ∈ rest := by
          rcases List.mem_cons.mp hmem with h | h
          · exact absurd h.symm he
          · exact h
        cases hg : mapGet srv idh with
        | none =>
            simp only [SyncServer.healthLoop, hg]
            exact ih _ _ _ hnd.2 hsrv hdb hmem2 hget
        | some s₀ =>
            cases ha0 : alive s₀.url with
            | true =>
                simp only [SyncServer.healthLoop, hg]
                rw [if_pos ha0]
                refine ih _ _ _ hnd.2 ?_ ?_ hmem2 ?_
                · rw [keys_mapSet_of_get _ _ _ _ hg]
                  exact hsrv
                · exact nodup_keys_mapSet _ _ _ hdb
                · rw [mapGet_set_ne _ _ _ _ hne]
                  exact hget
            | false =>
                simp only [SyncServer.healthLoop, hg]
                rw [if_neg (by simp [ha0])]
                refine ih _ _ _ hnd.2 ?_ ?_ hmem2 ?_
                · exact (keys_mapDel_sublist srv idh).nodup hsrv
                · exact (keys_mapDel_sublist db idh).nodup hdb
                · rw [mapGet_del_ne _ _ _ hne]
                  exact hget

/-! ### Claim theorems -/

open SyncServer RoutingServer Relay

/-- Claim C3: `GetRoute` fails with `NoRelayAvailable` exactly when both
the location-matched search and the designated fallback are empty.  In
the code the fallback is the compiled-in constant `fallbackServer`, so
the failure condition is unsatisfiable and selection always yields a
relay URL: when no relay matches the hint it is the fallback's endpoint,
otherwise the matched relay's. -/
theorem claim3_fallback_selection (sl : List RoutingServer.Server) (loc : String) :
    (sl.find? (fun s => s.location == loc) = none →
      getServerForLocation sl loc = fallbackServer.url) ∧
    (getServerForLocation sl loc = fallbackServer.url ∨
      ∃ s, s ∈ sl ∧ s.location = loc ∧ getServerForLocation sl loc = s.url) := by
  constructor
  · intro h
    simp [getServerForLocation, h]
  · cases h : sl.find? (fun s => s.location == loc) with
    | none => exact Or.inl (by simp [getServerForLocation, h])
    | some s =>
        refine Or.inr ⟨s, List.mem_of_find?_eq_some h, ?_, ?_⟩
        · have := List.find?_some h
          simpa using this
        · simp [getServerForLocation, h]

/-- Claim C3 witness: with an empty snapshot and the hint `eu` no relay
matches, and selection returns the fallback endpoint. -/
theorem claim3_fallback_selection_witness :
    (([] : List RoutingServer.Server).find? (fun s => s.location == "eu") = none) ∧
    getServerForLocation [] "eu" = fallbackServer.url :=
  ⟨rfl, (claim3_fallback_selection [] "eu").1 rfl⟩

/-- Claim C5: the relay's upgrade never rejects on the `Origin` header —
`CheckOrigin` returns `true` unconditionally, so a request whose origin
is absent or not in any allow-list still reaches `TUNNELING`.  This
evaluates the code at such requests, contradicting the claim (and the
repository's own SECURITY.md, which documents strict origin checking). -/
theorem claim5_origin_allow_all :
    handleWebSocket (some "https://evil.example") = SessionState.tunneling ∧
    handleWebSocket none = SessionState.tunneling ∧
    checkOrigin (some "https://evil.example") = true ∧
    checkOrigin none = true :=
  ⟨rfl, rfl, rfl, rfl⟩

/-- Claim C4: tunnel byte fidelity fails for a chunk larger than the
4096-byte buffer.  `WSConn.Read` reports `n = len(data)` although `copy`
transferred at most 4096 bytes, so `copyData`'s write of `buf[:n]` is a
slice-bounds violation: for a single 4097-byte message the loop dies
having delivered nothing, instead of forwarding the 4097 bytes. -/
theorem claim4_oversized_chunk_lost :
    (runTunnelDirection [List.replicate 4097 1]).2 = false ∧
    (runTunnelDirection [List.replicate 4097 1]).1 = [] ∧
    ([] : List (List Nat)) ≠ [List.replicate 4097 1] := by
  have hover : runTunnelDirection [List.replicate 4097 1] = ([], false) := by
    simp only [runTunnelDirection, copyData, wsRead, List.length_replicate, BUFSIZE]
    norm_num
  exact ⟨by rw [hover], by rw [hover], (List.cons_ne_nil _ _).symm⟩

/-- Claim C6: routing stability — for a snapshot whose entries carry
nonempty URLs (an invariant of every list the Registry or the
`/update-servers` validation produces), two consecutive `route` calls
for the same client ip return the identical relay URL even when the
second call carries a different location hint, and the first call leaves
the membership snapshot unchanged. -/
theorem claim6_route_stability (st : RouterState) (ip loc1 loc2 : String)
    (hurls : ∀ s ∈ st.serverList, s.url ≠ "") :
    (route (route st ip loc1).2 ip loc2).1 = (route st ip loc1).1 ∧
    (route st ip loc1).2.serverList = st.serverList := by
  have hfresh : getServerForLocation st.serverList loc1 ≠ "" := by
    unfold getServerForLocation
    cases h : st.serverList.find? (fun s => s.location == loc1) with
    | none => simp [fallbackServer]
    | some s => exact hurls s (List.mem_of_find?_eq_some h)
  cases h : mapGet st.cache ip with
  | none =>
      constructor
      · simp only [route, h]
        rw [mapGet_set_self]
        simp [hfresh]
      · simp [route, h]
  | some server =>
      by_cases hs : server = ""
      · subst hs
        constructor
        · simp only [route, h]
          rw [if_pos (by simp)]
          simp only []
          rw [mapGet_set_self]
          simp [hfresh]
        · simp [route, h]
      · constructor
        · simp only [route, h]
          rw [if_neg (by simpa using hs)]
          simp [route, h, hs]
        · simp [route, h, hs]

/-- Claim C2 counterexample: pushing a valid membership update that
drops the relay `wss://old.example/ws` leaves the cached assignment for
client `1.2.3.4` in place, and the next `route` call for that client
still returns the evicted endpoint — no invalidation happens. -/
theorem claim2_counterexample :
    (updateServers (fun _ => true)
        ⟨[⟨"us", "wss://old.example/ws"⟩], [("1.2.3.4", "wss://old.example/ws")]⟩
        [⟨"eu", "wss://new.example/ws"⟩]).1 = .updated 1 ∧
    (updateServers (fun _ => true)
        ⟨[⟨"us", "wss://old.example/ws"⟩], [("1.2.3.4", "wss://old.example/ws")]⟩
        [⟨"eu", "wss://new.example/ws"⟩]).2 =
      ⟨[⟨"eu", "wss://new.example/ws"⟩], [("1.2.3.4", "wss://old.example/ws")]⟩ ∧
    ("wss://old.example/ws" ∉
      ([⟨"eu", "wss://new.example/ws"⟩] : List RoutingServer.Server).map
        RoutingServer.Server.url) ∧
    (route
        (updateServers (fun _ => true)
          ⟨[⟨"us", "wss://old.example/ws"⟩], [("1.2.3.4", "wss://old.example/ws")]⟩
          [⟨"eu", "wss://new.example/ws"⟩]).2
        "1.2.3.4" "eu").1 = "wss://old.example/ws" := by
  decide

/-- Claim C2 (amended): `/update-servers` validates every entry and
replaces the snapshot atomically, but performs no cache invalidation:
the route cache survives the update unchanged, and a client whose cached
assignment references an evicted relay keeps receiving the stale
endpoint from subsequent `route` calls. -/
theorem claim2_update_keeps_cache (urlValid : String → Bool)
    (tok hdr : Option String) (st : RouterState)
    (body : List RoutingServer.Server) :
    (updateServersEndpoint urlValid tok hdr st body).2.cache = st.cache ∧
    (validateEntries urlValid body = none →
      authenticateSyncServer tok hdr = .pass →
      (updateServersEndpoint urlValid tok hdr st body).2.serverList = body ∧
      (updateServersEndpoint urlValid tok hdr st body).1 = .updated body.length) ∧
    (∀ ip url loc, mapGet st.cache ip = some url → url ≠ "" →
      (route (updateServersEndpoint urlValid tok hdr st body).2 ip loc).1 = url) := by
  have hcache :
      (updateServersEndpoint urlValid tok hdr st body).2.cache = st.cache := by
    cases ha : authenticateSyncServer tok hdr <;>
        simp only [updateServersEndpoint, updateServers, ha]
    · cases hv : validateEntries urlValid body <;> simp [hv]
  refine ⟨hcache, ?_, ?_⟩
  · intro hv ha
    simp [updateServersEndpoint, updateServers, ha, hv]
  · intro ip url loc hc hne
    simp only [route, hcache, hc]
    simp [hne]

/-- Claim C2 witness: a concrete update whose validation passes,
exercising both the snapshot replacement and the stale-cache retention. -/
theorem claim2_update_keeps_cache_witness :
    (updateServersEndpoint (fun _ => true) none none
        ⟨[⟨"us", "wss://old.example/ws"⟩], [("1.2.3.4", "wss://old.example/ws")]⟩
        [⟨"eu", "wss://new.example/ws"⟩]).2.cache =
      [("1.2.3.4", "wss://old.example/ws")] ∧
    validateEntries (fun _ => true)
      [(⟨"eu", "wss://new.example/ws"⟩ : RoutingServer.Server)] = none ∧
    (updateServersEndpoint (fun _ => true) none none
        ⟨[⟨"us", "wss://old.example/ws"⟩], [("1.2.3.4", "wss://old.example/ws")]⟩
        [⟨"eu", "wss://new.example/ws"⟩]).2.serverList =
      [⟨"eu", "wss://new.example/ws"⟩] ∧
    (route
        (updateServersEndpoint (fun _ => true) none none
          ⟨[⟨"us", "wss://old.example/ws"⟩], [("1.2.3.4", "wss://old.example/ws")]⟩
          [⟨"eu", "wss://new.example/ws"⟩]).2
        "1.2.3.4" "eu").1 = "wss://old.example/ws" :=
  ⟨(claim2_update_keeps_cache (fun _ => true) none none _ _).1,
   by decide,
   ((claim2_update_keeps_cache (fun _ => true) none none _ _).2.1
      (by decide) rfl).1,
   (claim2_update_keeps_cache (fun _ => true) none none _ _).2.2
      "1.2.3.4" "wss://old.example/ws" "eu" (by decide) (by decide)⟩

/-- Claim C1 counterexample: a second `/register` with the id
`server-01` (and a new url) does not replace the record — it fails with
409 `Server ID already exists`, and the stored record keeps the first
call's url and `lastSeen`. -/
theorem claim1_counterexample :
    (register (fun _ => true) "0123456789abcdef0123456789abcdef" 1 ⟨[], []⟩
        ⟨some "server-01", some "us", some "wss://a.example/ws"⟩).1 =
      .registered "server-01" ∧
    (register (fun _ => true) "0123456789abcdef0123456789abcdef" 2
        (register (fun _ => true) "0123456789abcdef0123456789abcdef" 1 ⟨[], []⟩
          ⟨some "server-01", some "us", some "wss://a.example/ws"⟩).2
        ⟨some "server-01", some "us", some "wss://b.example/ws"⟩).1 =
      .conflict ∧
    (register (fun _ => true) "0123456789abcdef0123456789abcdef" 2
        (register (fun _ => true) "0123456789abcdef0123456789abcdef" 1 ⟨[], []⟩
          ⟨some "server-01", some "us", some "wss://a.example/ws"⟩).2
        ⟨some "server-01", some "us", some "wss://b.example/ws"⟩).2 =
      (register (fun _ => true) "0123456789abcdef0123456789abcdef" 1 ⟨[], []⟩
        ⟨some "server-01", some "us", some "wss://a.example/ws"⟩).2 ∧
    mapGet
      (register (fun _ => true) "0123456789abcdef0123456789abcdef" 2
          (register (fun _ => true) "0123456789abcdef0123456789abcdef" 1 ⟨[], []⟩
            ⟨some "server-01", some "us", some "wss://a.example/ws"⟩).2
          ⟨some "server-01", some "us", some "wss://b.example/ws"⟩).2.servers
      "server-01" =
      some ⟨"server-01", "us", "wss://a.example/ws", 1, 1⟩ := by
  decide

/-- Claim C1 (amended): registration is not idempotent per id — a second
`Register` whose input passes validation but reuses an id already in the
table fails with 409 `ConflictError` and leaves the registry completely
unchanged: the existing `RelayRecord` keeps its original url and
`lastSeen`, and at most one record per id still holds. -/
theorem claim1_register_conflict (urlValid : String → Bool) (randHex : String)
    (now : Nat) (st : RegistryState) (i loc u : String) (s : SyncServer.Server)
    (hv : passesValidation urlValid i loc u = true)
    (hdup : mapGet st.servers i = some s) :
    register urlValid randHex now st ⟨some i, some loc, some u⟩ =
      (.conflict, st) ∧
    mapGet st.servers i = some s := by
  simp only [passesValidation, Bool.and_eq_true] at hv
  obtain ⟨⟨⟨⟨hne, hid⟩, hloc⟩, hurl⟩, hvalid⟩ := hv
  obtain ⟨⟨hi0, hl0⟩, hu0⟩ : (¬i = "" ∧ ¬loc = "") ∧ ¬u = "" := by simpa using hne
  obtain ⟨hl1, hl2⟩ : ¬loc.length = 0 ∧ ¬100 < loc.length := by simpa using hloc
  refine ⟨?_, hdup⟩
  rcases Bool.or_eq_true_iff.mp hurl with hw | hw <;>
    simp [register, falsy, hi0, hl0, hu0, hid, hl1, hl2, hw, hvalid,
      mapHas, hdup]

/-- Claim C1 witness: a registry already holding `server-01`, a second
valid registration for the same id. -/
theorem claim1_register_conflict_witness :
    passesValidation (fun _ => true) "server-01" "us" "wss://b.example/ws" = true ∧
    mapGet
        [("server-01",
          (⟨"server-01", "us", "wss://a.example/ws", 1, 1⟩ : SyncServer.Server))]
        "server-01" =
      some ⟨"server-01", "us", "wss://a.example/ws", 1, 1⟩ ∧
    register (fun _ => true) "x" 5
        ⟨[("server-01", ⟨"server-01", "us", "wss://a.example/ws", 1, 1⟩)],
         [("server-01", ⟨"server-01", "us", "wss://a.example/ws", 1, 1⟩)]⟩
        ⟨some "server-01", some "us", some "wss://b.example/ws"⟩ =
      (.conflict,
       ⟨[("server-01", ⟨"server-01", "us", "wss://a.example/ws", 1, 1⟩)],
        [("server-01", ⟨"server-01", "us", "wss://a.example/ws", 1, 1⟩)]⟩) :=
  ⟨by decide, by decide,
   (claim1_register_conflict (fun _ => true) "x" 5
      ⟨[("server-01", ⟨"server-01", "us", "wss://a.example/ws", 1, 1⟩)],
       [("server-01", ⟨"server-01", "us", "wss://a.example/ws", 1, 1⟩)]⟩
      "server-01" "us" "wss://b.example/ws"
      ⟨"server-01", "us", "wss://a.example/ws", 1, 1⟩
      (by decide) (by decide)).1⟩

/-- Claim C7: a `/register` request that is malformed in any of the ways
the specification names — a missing or empty field, an id with
characters outside `[a-zA-Z0-9_-]`, an empty or over-100-character
location, a url without the `ws://`/`wss://` scheme, or a url the URL
parser rejects — is answered with a 400 error and the registry state is
unchanged. -/
theorem claim7_register_rejects_malformed (urlValid : String → Bool)
    (randHex : String) (now : Nat) (st : RegistryState) (req : RegisterRequest)
    (hm : malformedReq urlValid req) :
    ∃ msg, register urlValid randHex now st req = (.badRequest msg, st) := by
  obtain ⟨oi, ol, ou⟩ := req
  cases h1 : (falsy oi || falsy ol || falsy ou) with
  | true =>
      exact ⟨"Missing required fields: id, location, url", by simp [register, h1]⟩
  | false =>
  cases h2 : idOK (oi.getD "") with
  | false =>
      exact ⟨"Invalid server ID format", by simp [register, h1, h2]⟩
  | true =>
  cases h3 : ((ol.getD "").length == 0 || decide ((ol.getD "").length > 100)) with
  | true =>
      exact ⟨"Invalid location", by simp [register, h1, h2, h3]⟩
  | false =>
  cases h4 : (!strStartsWith (ou.getD "") "wss://" &&
      !strStartsWith (ou.getD "") "ws://") with
  | true =>
      exact ⟨"Invalid URL: must use ws:// or wss:// protocol",
        by simp [register, h1, h2, h3, h4]⟩
  | false =>
  cases h5 : urlValid (ou.getD "") with
  | false =>
      exact ⟨"Invalid URL format", by simp [register, h1, h2, h3, h4, h5]⟩
  | true =>
      exfalso
      rcases hm with h | h | h | h | h | h | ⟨ha, hb⟩ | h <;> simp_all

/-- Claim C7 witness: an id containing a space is rejected with a 400
error and the registry stays empty. -/
theorem claim7_register_rejects_malformed_witness :
    malformedReq (fun _ => true)
      ⟨some "bad id", some "us", some "wss://a.example/ws"⟩ ∧
    ∃ msg, register (fun _ => true) "r" 0 ⟨[], []⟩
        ⟨some "bad id", some "us", some "wss://a.example/ws"⟩ =
      (.badRequest msg, ⟨[], []⟩) :=
  ⟨by decide,
   claim7_register_rejects_malformed (fun _ => true) "r" 0 ⟨[], []⟩
     ⟨some "bad id", some "us", some "wss://a.example/ws"⟩ (by decide)⟩

/-- Claim C9: on a validated, non-duplicate registration the handler
mints a fresh id exactly when the supplied one is shorter than 8
characters: the response's `serverId` is then the 32-hex-character
random string (necessarily different from the short supplied id) and the
record is stored under it; an id of 8 or more characters is used
unchanged. -/
theorem claim9_secure_id_minting (urlValid : String → Bool) (randHex : String)
    (now : Nat) (st : RegistryState) (i loc u : String)
    (hv : passesValidation urlValid i loc u = true)
    (hdup : mapHas st.servers i = false)
    (hlen : randHex.length = 32) :
    (i.length < 8 →
      register urlValid randHex now st ⟨some i, some loc, some u⟩ =
        (.registered randHex,
         ⟨mapSet st.servers randHex ⟨randHex, loc, u, now, now⟩,
          mapSet st.db randHex ⟨randHex, loc, u, now, now⟩⟩) ∧
      randHex ≠ i) ∧
    (8 ≤ i.length →
      register urlValid randHex now st ⟨some i, some loc, some u⟩ =
        (.registered i,
         ⟨mapSet st.servers i ⟨i, loc, u, now, now⟩,
          mapSet st.db i ⟨i, loc, u, now, now⟩⟩)) := by
  simp only [passesValidation, Bool.and_eq_true] at hv
  obtain ⟨⟨⟨⟨hne, hid⟩, hloc⟩, hurl⟩, hvalid⟩ := hv
  obtain ⟨⟨hi0, hl0⟩, hu0⟩ : (¬i = "" ∧ ¬loc = "") ∧ ¬u = "" := by simpa using hne
  obtain ⟨hl1, hl2⟩ : ¬loc.length = 0 ∧ ¬100 < loc.length := by simpa using hloc
  constructor
  · intro hlt
    constructor
    · rcases Bool.or_eq_true_iff.mp hurl with hw | hw <;>
        simp [register, falsy, hi0, hl0, hu0, hid, hl1, hl2, hw, hvalid, hdup,
          hlt]
    · intro heq
      rw [heq] at hlen
      omega
  · intro hge
    have hnlt : ¬i.length < 8 := Nat.not_lt.mpr hge
    rcases Bool.or_eq_true_iff.mp hurl with hw | hw <;>
      simp [register, falsy, hi0, hl0, hu0, hid, hl1, hl2, hw, hvalid, hdup,
        hnlt]

/-- Claim C9 witness: the 3-character id `abc` is replaced by the
32-character minted id; the record and the response carry it. -/
theorem claim9_secure_id_minting_witness :
    passesValidation (fun _ => true) "abc" "us" "wss://a.example/ws" = true ∧
    mapHas ([] : List (String × SyncServer.Server)) "abc" = false ∧
    ("0123456789abcdef0123456789abcdef" : String).length = 32 ∧
    ("abc" : String).length < 8 ∧
    register (fun _ => true) "0123456789abcdef0123456789abcdef" 7 ⟨[], []⟩
        ⟨some "abc", some "us", some "wss://a.example/ws"⟩ =
      (.registered "0123456789abcdef0123456789abcdef",
       ⟨mapSet []
          "0123456789abcdef0123456789abcdef"
          ⟨"0123456789abcdef0123456789abcdef", "us", "wss://a.example/ws", 7, 7⟩,
        mapSet []
          "0123456789abcdef0123456789abcdef"
          ⟨"0123456789abcdef0123456789abcdef", "us", "wss://a.example/ws", 7, 7⟩⟩) ∧
    ("0123456789abcdef0123456789abcdef" : String) ≠ "abc" :=
  ⟨by decide, by decide, by decide, by decide,
   ((claim9_secure_id_minting (fun _ => true) "0123456789abcdef0123456789abcdef"
       7 ⟨[], []⟩ "abc" "us" "wss://a.example/ws"
       (by decide) (by decide) (by decide)).1 (by decide)).1,
   ((claim9_secure_id_minting (fun _ => true) "0123456789abcdef0123456789abcdef"
       7 ⟨[], []⟩ "abc" "us" "wss://a.example/ws"
       (by decide) (by decide) (by decide)).1 (by decide)).2⟩

/-- Claim C10: with `SYNC_SERVER_TOKEN` unset the middleware performs no
credential check, so any caller (no header needed) can replace the
snapshot through `/update-servers`; with the token set, a missing or
non-`Bearer` authorization header yields 401 and a wrong token yields
403, both leaving the router state unchanged. -/
theorem claim10_auth_middleware (urlValid : String → Bool) (st : RouterState)
    (body : List RoutingServer.Server) (hdr : Option String) (t : String) :
    (updateServersEndpoint urlValid none hdr st body =
      updateServers urlValid st body) ∧
    (validateEntries urlValid body = none →
      (updateServersEndpoint urlValid none hdr st body).2.serverList = body) ∧
    ((hdr = none ∨ ∃ h, hdr = some h ∧ strStartsWith h "Bearer " = false) →
      updateServersEndpoint urlValid (some t) hdr st body =
        (.authFailed 401, st)) ∧
    (∀ h, hdr = some h → strStartsWith h "Bearer " = true →
      substrFrom h 7 ≠ t →
      updateServersEndpoint urlValid (some t) hdr st body =
        (.authFailed 403, st)) := by
  refine ⟨rfl, fun hv => ?_, fun h401 => ?_, fun h hh hb ht => ?_⟩
  · simp [updateServersEndpoint, authenticateSyncServer, updateServers, hv]
  · rcases h401 with h | ⟨hh, hhdr, hb⟩
    · subst h
      rfl
    · subst hhdr
      simp [updateServersEndpoint, authenticateSyncServer, hb]
  · subst hh
    simp [updateServersEndpoint, authenticateSyncServer, hb, ht]

/-- Claim C10 witness: the three concrete outcomes — open acceptance
with the variable unset, 401 for a missing header, 403 for a wrong
bearer token. -/
theorem claim10_auth_middleware_witness :
    validateEntries (fun _ => true)
      [(⟨"us", "wss://a.example/ws"⟩ : RoutingServer.Server)] = none ∧
    (updateServersEndpoint (fun _ => true) none (some "anything") ⟨[], []⟩
        [⟨"us", "wss://a.example/ws"⟩]).2.serverList =
      [⟨"us", "wss://a.example/ws"⟩] ∧
    updateServersEndpoint (fun _ => true) (some "right") none ⟨[], []⟩ [] =
      (.authFailed 401, ⟨[], []⟩) ∧
    updateServersEndpoint (fun _ => true) (some "right") (some "Bearer wrong")
        ⟨[], []⟩ [] = (.authFailed 403, ⟨[], []⟩) :=
  ⟨by decide,
   (claim10_auth_middleware (fun _ => true) ⟨[], []⟩ [⟨"us", "wss://a.example/ws"⟩]
      (some "anything") "unused").2.1 (by decide),
   (claim10_auth_middleware (fun _ => true) ⟨[], []⟩ [] none "right").2.2.1
      (Or.inl rfl),
   (claim10_auth_middleware (fun _ => true) ⟨[], []⟩ [] (some "Bearer wrong")
      "right").2.2.2 "Bearer wrong" rfl (by decide) (by decide)⟩

/-- Claim C6 witness: a concrete snapshot and client, second hint
differing from the first. -/
theorem claim6_route_stability_witness :
    (∀ s ∈ ([⟨"us", "wss://a.example/ws"⟩] : List RoutingServer.Server),
        s.url ≠ "") ∧
    (route (route ⟨[⟨"us", "wss://a.example/ws"⟩], []⟩ "1.2.3.4" "us").2
        "1.2.3.4" "eu").1 =
      (route ⟨[⟨"us", "wss://a.example/ws"⟩], []⟩ "1.2.3.4" "us").1 :=
  ⟨by decide,
   (claim6_route_stability ⟨[⟨"us", "wss://a.example/ws"⟩], []⟩ "1.2.3.4" "us" "eu"
      (by decide)).1⟩

/-- Claim C8: health-sweep postcondition for every record present when
the sweep runs (the `Map` key sets are duplicate-free).  A record whose
liveness probe succeeds stays in membership with `lastSeen` refreshed
and is persisted to the database; a record whose probe fails is removed
from both the in-memory table and durable storage — so the `/list`
projection over the table no longer contains its row — and the sweep
reports the membership change that triggers the push to the Router. -/
theorem claim8_health_sweep (alive : String → Bool) (now : Nat)
    (st : RegistryState) (id : String) (s : SyncServer.Server)
    (hsrv : (st.servers.map Prod.fst).Nodup)
    (hdb : (st.db.map Prod.fst).Nodup)
    (hget : mapGet st.servers id = some s) :
    (alive s.url = true →
      mapGet (SyncServer.healthCheck alive now st).1 id =
        some { s with lastSeen := now } ∧
      mapGet (SyncServer.healthCheck alive now st).2.1 id =
        some { s with lastSeen := now }) ∧
    (alive s.url = false →
      mapGet (SyncServer.healthCheck alive now st).1 id = none ∧
      mapGet (SyncServer.healthCheck alive now st).2.1 id = none ∧
      (SyncServer.healthCheck alive now st).2.2 = true) :=
  healthLoop_spec alive now (st.servers.map Prod.fst) st.servers st.db false
    id s hsrv hsrv hdb (mapGet_mem_keys _ _ _ hget) hget

/-- Claim C8 witness: a one-relay registry whose probe fails; the sweep
evicts the record from memory and storage and flags the change. -/
theorem claim8_health_sweep_witness :
    ((([("r1", (⟨"r1", "us", "ws://a.example/ws", 0, 0⟩ : SyncServer.Server))] :
        List (String × SyncServer.Server)).map Prod.fst).Nodup) ∧
    mapGet [("r1", (⟨"r1", "us", "ws://a.example/ws", 0, 0⟩ : SyncServer.Server))]
        "r1" = some ⟨"r1", "us", "ws://a.example/ws", 0, 0⟩ ∧
    (mapGet (SyncServer.healthCheck (fun _ => false) 5
        ⟨[("r1", ⟨"r1", "us", "ws://a.example/ws", 0, 0⟩)],
         [("r1", ⟨"r1", "us", "ws://a.example/ws", 0, 0⟩)]⟩).1 "r1" = none ∧
     mapGet (SyncServer.healthCheck (fun _ => false) 5
        ⟨[("r1", ⟨"r1", "us", "ws://a.example/ws", 0, 0⟩)],
         [("r1", ⟨"r1", "us", "ws://a.example/ws", 0, 0⟩)]⟩).2.1 "r1" = none ∧
     (SyncServer.healthCheck (fun _ => false) 5
        ⟨[("r1", ⟨"r1", "us", "ws://a.example/ws", 0, 0⟩)],
         [("r1", ⟨"r1", "us", "ws://a.example/ws", 0, 0⟩)]⟩).2.2 = true) :=
  ⟨by decide, by decide,
   (claim8_health_sweep (fun _ => false) 5
      ⟨[("r1", ⟨"r1", "us", "ws://a.example/ws", 0, 0⟩)],
       [("r1", ⟨"r1", "us", "ws://a.example/ws", 0, 0⟩)]⟩
      "r1" ⟨"r1", "us", "ws://a.example/ws", 0, 0⟩
      (by decide) (by decide) (by decide)).2 rfl⟩

end HorseVPN
